import Mathlib

/-!
Verification of the render layer of the citey repository.

The OpenGL device is modelled as an oracle (`Device`) for the values the
driver reports back (info-log lengths, log bytes, uniform locations), and
every operation of the layer is embedded as a pure Lean function that
returns the list of device calls it issues (`List GLCall`) together with
its result.  Byte buffers are `List UInt8`; GL handles are `Nat`;
`GLint` values coming back from the device are `Int`.
-/

namespace Citey

/-- OpenGL enum values used by the code (from the generated bindings). -/
def gl_TRIANGLES : Nat := 0x0004

def gl_UNSIGNED_SHORT : Nat := 0x1403

def gl_UNSIGNED_INT : Nat := 0x1405

def gl_FLOAT : Nat := 0x1406

def gl_ARRAY_BUFFER : Nat := 0x8892

def gl_ELEMENT_ARRAY_BUFFER : Nat := 0x8893

def gl_STATIC_DRAW : Nat := 0x88E4

def gl_INFO_LOG_LENGTH : Nat := 0x8B84

/-- One call issued to the graphics device.  Arguments that carry no
information for the properties below (raw data pointers, source text)
are omitted; sizes, targets, ids and scalar-type enums are kept. -/
inductive GLCall where
  | createShader (shaderType : Nat) (id : Nat)
  | shaderSource (id : Nat)
  | compileShader (id : Nat)
  | getShaderiv (id : Nat) (pname : Nat)
  | getShaderInfoLog (id : Nat) (bufSize : Nat)
  | deleteShader (id : Nat)
  | createProgram (id : Nat)
  | attachShader (prog : Nat) (sh : Nat)
  | detachShader (prog : Nat) (sh : Nat)
  | linkProgram (prog : Nat)
  | getProgramiv (prog : Nat) (pname : Nat)
  | getProgramInfoLog (prog : Nat) (bufSize : Nat)
  | getUniformLocation (prog : Nat) (name : String)
  | useProgram (id : Nat)
  | deleteProgram (id : Nat)
  | uniform1f (location : Int)
  | uniform2f (location : Int)
  | uniform3f (location : Int)
  | uniform4f (location : Int)
  | uniformMatrix4fv (location : Int)
  | genBuffers (id : Nat)
  | bindBuffer (target : Nat) (id : Nat)
  | bufferData (target : Nat) (size : Nat) (usage : Nat)
  | deleteBuffers (id : Nat)
  | genVertexArrays (id : Nat)
  | bindVertexArray (id : Nat)
  | deleteVertexArrays (id : Nat)
  | enableVertexAttribArray (location : Nat)
  | disableVertexAttribArray (location : Nat)
  | vertexAttribPointer (location : Nat) (compCount : Nat) (scalarType : Nat)
      (normalized : Bool) (stride : Nat) (offset : Nat)
  | drawElements (mode : Nat) (count : Int) (scalarType : Nat)
  deriving DecidableEq

/-- Oracle for the values the device reports back to the layer. -/
structure Device where
  shaderInfoLogLength : Int
  shaderLogWritten : List UInt8
  programInfoLogLength : Int
  programLogWritten : List UInt8
  uniformLocation : String → Int

/-- `create_empty_vec_cstr` from src/render/src/lib.rs: a byte vector of
exactly `len` space characters (the reserved extra capacity holds no
element, so the vector's length is exactly `len`). -/
def create_empty_vec_cstr (len : Nat) : List UInt8 :=
  List.replicate len 32

/-- `create_str_from_raw_cstr` from src/render/src/lib.rs.  It indexes
`str[str.len() - 1]`, which panics on an empty vector: that case is
`none`.  Otherwise it drops a single trailing null byte if present. -/
def create_str_from_raw_cstr (str : List UInt8) : Option (List UInt8) :=
  match str.getLast? with
  | none => none
  | some last => some (if last = 0 then str.dropLast else str)

/-- The device's log-retrieval call writes into the caller's buffer in
place: the written bytes replace a prefix and the buffer keeps its
length. -/
def overwritePrefix (buf written : List UInt8) : List UInt8 :=
  written.take buf.length ++ buf.drop written.length

/-- Spec-side description of the converted log text, for comparison with
`create_str_from_raw_cstr`: the buffer with a single trailing null byte,
if present, removed. -/
def stripTrailingNull (l : List UInt8) : List UInt8 :=
  if l.getLast? = some 0 then l.dropLast else l

/-- `Shader::check_compile_error`: queries `INFO_LOG_LENGTH`; when it is
positive, reads the log into a buffer of exactly that length and fails
with the converted text.  `none` marks a panic inside the conversion. -/
def Shader.check_compile_error (d : Device) (id : Nat) :
    List GLCall × Option (Except (List UInt8) Unit) :=
  if 0 < d.shaderInfoLogLength then
    let len := d.shaderInfoLogLength.toNat
    let buf := overwritePrefix (create_empty_vec_cstr len) d.shaderLogWritten
    ([GLCall.getShaderiv id gl_INFO_LOG_LENGTH, GLCall.getShaderInfoLog id len],
      (create_str_from_raw_cstr buf).map Except.error)
  else
    ([GLCall.getShaderiv id gl_INFO_LOG_LENGTH], some (Except.ok ()))

/-- `Shader::new_from_source`: create the shader, submit the source,
compile, then run the compile-error check; on error the shader local is
dropped (issuing `DeleteShader`) before the error is returned. -/
def Shader.new_from_source (d : Device) (id : Nat) (shaderType : Nat) :
    List GLCall × Option (Except (List UInt8) Nat) :=
  let pre := [GLCall.createShader shaderType id, GLCall.shaderSource id,
    GLCall.compileShader id]
  let ck := Shader.check_compile_error d id
  match ck.2 with
  | none => (pre ++ ck.1, none)
  | some (Except.error e) =>
      (pre ++ ck.1 ++ [GLCall.deleteShader id], some (Except.error e))
  | some (Except.ok _) => (pre ++ ck.1, some (Except.ok id))

/-- `ShaderProgram::check_link_error`: identical protocol against the
program info log. -/
def ShaderProgram.check_link_error (d : Device) (id : Nat) :
    List GLCall × Option (Except (List UInt8) Unit) :=
  if 0 < d.programInfoLogLength then
    let len := d.programInfoLogLength.toNat
    let buf := overwritePrefix (create_empty_vec_cstr len) d.programLogWritten
    ([GLCall.getProgramiv id gl_INFO_LOG_LENGTH, GLCall.getProgramInfoLog id len],
      (create_str_from_raw_cstr buf).map Except.error)
  else
    ([GLCall.getProgramiv id gl_INFO_LOG_LENGTH], some (Except.ok ()))

/-- The cached uniform table: name-to-location pairs, first match wins
(`HashMap::get`). -/
def mapGet : List (String × Int) → String → Option Int
  | [], _ => none
  | p :: m, k => if p.1 = k then some p.2 else mapGet m k

/-- Does the table hold the key? -/
def mapHasKey : List (String × Int) → String → Bool
  | [], _ => false
  | p :: m, k => p.1 = k || mapHasKey m k

/-- Overwrite every pair carrying the key with the new pair. -/
def mapOverwrite (k : String) (v : Int) :
    List (String × Int) → List (String × Int)
  | [] => []
  | p :: m => (if p.1 = k then (k, v) else p) :: mapOverwrite k v m

/-- `HashMap::insert`: overwrite the value when the key is present,
append the pair otherwise. -/
def mapInsert (m : List (String × Int)) (k : String) (v : Int) :
    List (String × Int) :=
  if mapHasKey m k then mapOverwrite k v m else m ++ [(k, v)]

/-- The uniform-lookup loop of `ShaderProgram::new_from_shaders`: for
each requested name in order, query its location; a negative location is
only logged, a non-negative one is inserted into the table. -/
def uniformTableFrom (locOf : String → Int) (acc : List (String × Int)) :
    List String → List (String × Int)
  | [] => acc
  | n :: rest =>
      uniformTableFrom locOf
        (if locOf n < 0 then acc else mapInsert acc n (locOf n)) rest

/-- The table built by the loop starting from the freshly allocated
(empty) map. -/
def uniformTable (locOf : String → Int) (names : List String) :
    List (String × Int) :=
  uniformTableFrom locOf [] names

/-- The device calls the uniform-lookup loop issues: one
`GetUniformLocation` per requested name, in order. -/
def uniformLookupTrace (progId : Nat) (names : List String) : List GLCall :=
  names.map (GLCall.getUniformLocation progId)

/-- A linked shader program: its handle and its cached uniform table. -/
structure ShaderProgram where
  id : Nat
  uniforms : List (String × Int)
  deriving DecidableEq

/-- `ShaderProgram::new_from_shaders`: create the program, attach every
shader, link, check the link log.  On a link error the function returns
at once: the program local and then the shader vector are dropped, so
`DeleteProgram` and one `DeleteShader` per shader are issued with the
shaders still attached.  On success each shader is detached and dropped
at the end of its loop iteration, then the uniform table is built. -/
def ShaderProgram.new_from_shaders (d : Device) (progId : Nat)
    (shaders : List Nat) (uniforms : List String) :
    List GLCall × Option (Except (List UInt8) ShaderProgram) :=
  let pre := GLCall.createProgram progId ::
    (shaders.map (GLCall.attachShader progId) ++ [GLCall.linkProgram progId])
  let ck := ShaderProgram.check_link_error d progId
  match ck.2 with
  | none => (pre ++ ck.1, none)
  | some (Except.error e) =>
      (pre ++ ck.1 ++ [GLCall.deleteProgram progId]
        ++ shaders.map GLCall.deleteShader, some (Except.error e))
  | some (Except.ok _) =>
      (pre ++ ck.1
        ++ shaders.flatMap (fun s => [GLCall.detachShader progId s, GLCall.deleteShader s])
        ++ uniformLookupTrace progId uniforms,
        some (Except.ok ⟨progId, uniformTable d.uniformLocation uniforms⟩))

/-- The value types implementing the `Uniform` capability in the render
crate, each dispatching one type-specific device call. -/
inductive UniformValue where
  | f32
  | vec2
  | vec3
  | vec4
  deriving DecidableEq

/-- The device call a `Uniform` value issues at a location. -/
def UniformValue.set_uniform : UniformValue → Int → GLCall
  | UniformValue.f32, loc => GLCall.uniform1f loc
  | UniformValue.vec2, loc => GLCall.uniform2f loc
  | UniformValue.vec3, loc => GLCall.uniform3f loc
  | UniformValue.vec4, loc => GLCall.uniform4f loc

/-- `ShaderProgram::set_uniform`: look the name up in the cached table;
dispatch the value's call at the cached location when present, do
nothing when absent.  The method takes `&self`: the returned program is
the receiver, unchanged. -/
def ShaderProgram.set_uniform (p : ShaderProgram) (name : String)
    (v : UniformValue) : List GLCall × ShaderProgram :=
  match mapGet p.uniforms name with
  | some loc => ([v.set_uniform loc], p)
  | none => ([], p)

/-- `ShaderProgram::bind`. -/
def ShaderProgram.bind (p : ShaderProgram) : List GLCall × ShaderProgram :=
  ([GLCall.useProgram p.id], p)

/-- `ShaderProgram::unbind` (via `unbind_all`). -/
def ShaderProgram.unbind (p : ShaderProgram) : List GLCall × ShaderProgram :=
  ([GLCall.useProgram 0], p)

/-- One named field of a vertex record, as the derive in
src/render_derive/src/lib.rs sees it: its explicit `#[location = ?]`
attribute, the component description its type supplies through
`VertComponent` (count and scalar type), and the field type's in-memory
size. -/
structure FieldDesc where
  location : Nat
  compCount : Nat
  scalarType : Nat
  byteSize : Nat
  deriving DecidableEq

/-- The body of the generated `setup_attrib_pointer`: walk the fields in
declaration order with a running byte offset starting at 0, emit one
`VertexAttribPointer` call per field (normalize flag false, stride =
total record size), then advance the offset by the field's size. -/
def setup_attrib_pointer_from (stride : Nat) (offset : Nat) :
    List FieldDesc → List GLCall
  | [] => []
  | f :: rest =>
      GLCall.vertexAttribPointer f.location f.compCount f.scalarType false
          stride offset
        :: setup_attrib_pointer_from stride (offset + f.byteSize) rest

/-- The generated `setup_attrib_pointer` for a record with the given
fields and total in-memory size (`size_of::<Self>()`). -/
def setup_attrib_pointer (fields : List FieldDesc) (stride : Nat) :
    List GLCall :=
  setup_attrib_pointer_from stride 0 fields

/-- The generated `enable_attribs`: one enable call per field location,
in declaration order. -/
def enable_attribs (fields : List FieldDesc) : List GLCall :=
  fields.map (fun f => GLCall.enableVertexAttribArray f.location)

/-- The generated `disable_attribs`: one disable call per field
location, in declaration order. -/
def disable_attribs (fields : List FieldDesc) : List GLCall :=
  fields.map (fun f => GLCall.disableVertexAttribArray f.location)

/-- The running offsets the generated walk assigns to successive fields
when it starts at `offset`. -/
def attribOffsets (offset : Nat) : List FieldDesc → List Nat
  | [] => []
  | f :: rest => offset :: attribOffsets (offset + f.byteSize) rest

/-- The index scalar types implementing the `Index` capability
(`implement_index!` in src/render/src/macros.rs). -/
inductive IndexTy where
  | u16
  | u32
  deriving DecidableEq

/-- `Index::get_type` as implemented by `implement_index!`. -/
def IndexTy.get_type : IndexTy → Nat
  | IndexTy.u16 => gl_UNSIGNED_SHORT
  | IndexTy.u32 => gl_UNSIGNED_INT

/-- `size_of` for the index scalar types. -/
def IndexTy.byteSize : IndexTy → Nat
  | IndexTy.u16 => 2
  | IndexTy.u32 => 4

/-- `Buffer::bind`. -/
def Buffer.bindCalls (id target : Nat) : List GLCall :=
  [GLCall.bindBuffer target id]

/-- `Buffer::unbind` / `Buffer::unbind_all`: bind the null handle. -/
def Buffer.unbindCalls (target : Nat) : List GLCall :=
  [GLCall.bindBuffer target 0]

/-- `Buffer::buffer_raw`: optionally bind, upload `size` bytes,
optionally unbind. -/
def Buffer.buffer_raw (id target usage size : Nat) (bind : Bool) :
    List GLCall :=
  (if bind then Buffer.bindCalls id target else [])
    ++ [GLCall.bufferData target size usage]
    ++ (if bind then Buffer.unbindCalls target else [])

/-- `Buffer::buffer`: uploads `data.len() * size_of::<T>()` bytes. -/
def Buffer.bufferCalls (id target usage len elemSize : Nat) (bind : Bool) :
    List GLCall :=
  Buffer.buffer_raw id target usage (len * elemSize) bind

/-- The `usize as i32` cast Rust performs on the index count. -/
def i32_of_usize (n : Nat) : Int :=
  if n % 2 ^ 32 < 2 ^ 31 then ((n % 2 ^ 32 : Nat) : Int)
  else ((n % 2 ^ 32 : Nat) : Int) - 2 ^ 32

/-- A mesh: the handles of its vertex array, vertex buffer and index
buffer, its stored index count, and the type parameters that determine
its generated layout calls (the vertex record's fields and total size)
and its index scalar type. -/
structure Mesh where
  vaoId : Nat
  vboId : Nat
  eboId : Nat
  indices : Nat
  fields : List FieldDesc
  vertexSize : Nat
  indexType : IndexTy
  deriving DecidableEq

/-- `Mesh::create`: generate and bind the vertex array; generate the
vertex buffer, bind it, upload the vertices without re-binding; run the
layout's `setup_attrib_pointer`; unbind the vertex buffer; generate the
index buffer and upload the indices with bind/unbind bracketing; unbind
the vertex array.  `vao`, `vbo`, `ebo` are the handles the device
returns from the three generate calls. -/
def Mesh.create (vao vbo ebo : Nat) (fields : List FieldDesc)
    (vertexSize : Nat) (indexType : IndexTy)
    (vertexCount indexCount : Nat) : List GLCall × Mesh :=
  ([GLCall.genVertexArrays vao, GLCall.bindVertexArray vao,
      GLCall.genBuffers vbo]
    ++ Buffer.bindCalls vbo gl_ARRAY_BUFFER
    ++ Buffer.bufferCalls vbo gl_ARRAY_BUFFER gl_STATIC_DRAW vertexCount
        vertexSize false
    ++ setup_attrib_pointer fields vertexSize
    ++ Buffer.unbindCalls gl_ARRAY_BUFFER
    ++ [GLCall.genBuffers ebo]
    ++ Buffer.bufferCalls ebo gl_ELEMENT_ARRAY_BUFFER gl_STATIC_DRAW
        indexCount indexType.byteSize true
    ++ [GLCall.bindVertexArray 0],
    ⟨vao, vbo, ebo, indexCount, fields, vertexSize, indexType⟩)

/-- `Mesh::render`: bind the vertex array and the index buffer, enable
the attributes, issue one `DrawElements` with the `TRIANGLES` mode, the
stored index count cast to `i32`, and the fixed `UNSIGNED_SHORT` scalar
type (as the source does), disable the attributes, unbind the index
buffer and the vertex array.  The method takes `&self`. -/
def Mesh.render (m : Mesh) : List GLCall :=
  [GLCall.bindVertexArray m.vaoId]
    ++ Buffer.bindCalls m.eboId gl_ELEMENT_ARRAY_BUFFER
    ++ enable_attribs m.fields
    ++ [GLCall.drawElements gl_TRIANGLES (i32_of_usize m.indices)
        gl_UNSIGNED_SHORT]
    ++ disable_attribs m.fields
    ++ Buffer.unbindCalls gl_ELEMENT_ARRAY_BUFFER
    ++ [GLCall.bindVertexArray 0]

/-- Is a call an indexed-draw call? -/
def isDraw : GLCall → Bool
  | GLCall.drawElements _ _ _ => true
  | _ => false

/-- Is a call a `DetachShader` call? -/
def isDetach : GLCall → Bool
  | GLCall.detachShader _ _ => true
  | _ => false

/-- Is a call a uniform-location query? -/
def isUniformQuery : GLCall → Bool
  | GLCall.getUniformLocation _ _ => true
  | _ => false

/-- Did a fallible operation return an error? -/
def isErr {α β : Type} : Option (Except α β) → Bool
  | some (Except.error _) => true
  | _ => false

/-- How one call updates the handle bound to a buffer target. -/
def bufferBindStep (target : Nat) (acc : Option Nat) (c : GLCall) :
    Option Nat :=
  match c with
  | GLCall.bindBuffer tgt id => if tgt = target then some id else acc
  | _ => acc

/-- The buffer handle left bound to `target` after a trace runs (if the
trace binds that target at all). -/
def finalBufferBind (target : Nat) (t : List GLCall) : Option Nat :=
  t.foldl (bufferBindStep target) none

/-- How one call updates the bound vertex-array handle. -/
def vertexArrayBindStep (acc : Option Nat) (c : GLCall) : Option Nat :=
  match c with
  | GLCall.bindVertexArray id => some id
  | _ => acc

/-- The vertex-array handle left bound after a trace runs (if the trace
binds the vertex-array target at all). -/
def finalVertexArrayBind (t : List GLCall) : Option Nat :=
  t.foldl vertexArrayBindStep none

/-- The vertex record used by the demo application: `pos: Vec3` at
location 0 and `col: Vec3` at location 1, each three floats, 12 bytes,
in a packed record of 24 bytes. -/
def demoVertexFields : List FieldDesc :=
  [⟨0, 3, gl_FLOAT, 12⟩, ⟨1, 3, gl_FLOAT, 12⟩]

/-- Is every location stored in a uniform table non-negative? -/
def allNonneg (m : List (String × Int)) : Bool :=
  m.all (fun kv => decide (0 ≤ kv.2))

/-- A sample device for whose shader and program logs are empty and
which locates the uniform named mvp at 3 and nothing else. -/
def devU : Device :=
  ⟨0, [], 0, [], fun n => if n = "mvp" then 3 else -1⟩

/-- A sample device reporting a five-byte compile log and a five-byte
link log, each null-terminated. -/
def devE : Device :=
  ⟨5, [101, 114, 114, 33, 0], 5, [108, 105, 110, 107, 0], fun _ => -1⟩

/-- A sample program with one cached uniform at location 5. -/
def progEx : ShaderProgram :=
  ⟨9, [("alpha", 5)]⟩

/-- The program `new_from_shaders` builds on `devU` when asked for the
uniforms mvp and missing. -/
def progU : ShaderProgram :=
  ⟨7, uniformTable devU.uniformLocation ["mvp", "missing"]⟩

/- Helper lemmas. -/

lemma filter_map_eq_nil {α : Type} (p : GLCall → Bool) (f : α → GLCall)
    (l : List α) (h : ∀ a, p (f a) = false) : (l.map f).filter p = [] := by
  induction l with
  | nil => rfl
  | cons a rest ih => simp [List.filter, h, ih]

lemma overwritePrefix_length (buf written : List UInt8) :
    (overwritePrefix buf written).length = buf.length := by
  simp [overwritePrefix]
  omega

lemma create_str_some (l : List UInt8) (h : l ≠ []) :
    create_str_from_raw_cstr l = some (stripTrailingNull l) := by
  rcases hl : l.getLast? with _ | last
  · exact absurd (List.getLast?_eq_none_iff.mp hl) h
  · simp only [create_str_from_raw_cstr, hl, stripTrailingNull]
    by_cases h0 : last = 0
    · subst h0
      simp [hl]
    · have : ¬ l.getLast? = some 0 := by
        rw [hl]
        simp [h0]
      simp [h0, this]

lemma create_empty_nonempty (len : Nat) (h : 0 < len) :
    create_empty_vec_cstr len ≠ [] := by
  intro hcon
  have := congrArg List.length hcon
  simp [create_empty_vec_cstr] at this
  omega

lemma overwritePrefix_nonempty (buf written : List UInt8) (h : buf ≠ []) :
    overwritePrefix buf written ≠ [] := by
  have hlen := overwritePrefix_length buf written
  intro hcon
  rw [hcon] at hlen
  simp at hlen
  exact h (List.eq_nil_of_length_eq_zero hlen.symm)

lemma mapGet_overwrite_self (m : List (String × Int)) (k : String) (v : Int)
    (h : mapHasKey m k = true) : mapGet (mapOverwrite k v m) k = some v := by
  induction m with
  | nil => simp [mapHasKey] at h
  | cons p m ih =>
    by_cases hpk : p.1 = k
    · simp [mapOverwrite, mapGet, hpk]
    · have hm : mapHasKey m k = true := by
        simpa [mapHasKey, hpk] using h
      simp [mapOverwrite, mapGet, hpk, ih hm]

lemma mapGet_append_self (m : List (String × Int)) (k : String) (v : Int)
    (h : mapHasKey m k = false) : mapGet (m ++ [(k, v)]) k = some v := by
  induction m with
  | nil => simp [mapGet]
  | cons p m ih =>
    have hpk : ¬ p.1 = k := by
      intro hcon
      simp [mapHasKey, hcon] at h
    have hm : mapHasKey m k = false := by
      simpa [mapHasKey, hpk] using h
    simp [mapGet, hpk, ih hm]

lemma mapGet_insert_self (m : List (String × Int)) (k : String) (v : Int) :
    mapGet (mapInsert m k v) k = some v := by
  by_cases h : mapHasKey m k = true
  · simp [mapInsert, h, mapGet_overwrite_self m k v h]
  · have hf : mapHasKey m k = false := by simpa using h
    simp [mapInsert, hf, mapGet_append_self m k v hf]

lemma mapGet_overwrite_ne (m : List (String × Int)) (k k' : String) (v : Int)
    (hne : k ≠ k') : mapGet (mapOverwrite k v m) k' = mapGet m k' := by
  induction m with
  | nil => rfl
  | cons p m ih =>
    by_cases hpk : p.1 = k
    · have hpk' : ¬ p.1 = k' := by
        rw [hpk]
        exact hne
      simp [mapOverwrite, mapGet, hpk, hne, hpk', ih]
    · by_cases hpk' : p.1 = k'
      · simp [mapOverwrite, mapGet, hpk, hpk', Ne.symm hne]
      · simp [mapOverwrite, mapGet, hpk, hpk', ih]

lemma mapGet_append_ne (m : List (String × Int)) (k k' : String) (v : Int)
    (hne : k ≠ k') : mapGet (m ++ [(k, v)]) k' = mapGet m k' := by
  induction m with
  | nil => simp [mapGet, hne]
  | cons p m ih =>
    by_cases hpk' : p.1 = k'
    · simp [mapGet, hpk']
    · simp [mapGet, hpk', ih]

lemma mapGet_insert_ne (m : List (String × Int)) (k k' : String) (v : Int)
    (hne : k ≠ k') : mapGet (mapInsert m k v) k' = mapGet m k' := by
  by_cases h : mapHasKey m k = true
  · simp [mapInsert, h, mapGet_overwrite_ne m k k' v hne]
  · have hf : mapHasKey m k = false := by simpa using h
    simp [mapInsert, hf, mapGet_append_ne m k k' v hne]

lemma mapGet_uniformTableFrom (locOf : String → Int) (names : List String)
    (acc : List (String × Int)) (k : String) :
    mapGet (uniformTableFrom locOf acc names) k
      = if k ∈ names ∧ 0 ≤ locOf k then some (locOf k)
        else mapGet acc k := by
  induction names generalizing acc with
  | nil => simp [uniformTableFrom]
  | cons n rest ih =>
    rw [uniformTableFrom, ih]
    by_cases hmem : k ∈ rest ∧ 0 ≤ locOf k
    · simp [hmem, List.mem_cons, hmem.1, hmem.2]
    · rw [if_neg hmem]
      by_cases hk : k = n
      · subst hk
        by_cases hneg : locOf k < 0
        · have hnot : ¬ (0 ≤ locOf k) := by omega
          simp [hneg, hnot]
        · have hge : 0 ≤ locOf k := by omega
          simp [hneg, hge, mapGet_insert_self]
      · by_cases hneg : locOf n < 0
        · simp [hneg, hk, hmem]
        · simp [hneg, hk, hmem, mapGet_insert_ne acc n k (locOf n) (Ne.symm hk)]

lemma mem_mapOverwrite {kv : String × Int} (m : List (String × Int))
    (k : String) (v : Int) (h : kv ∈ mapOverwrite k v m) :
    kv ∈ m ∨ kv = (k, v) := by
  induction m with
  | nil => simp [mapOverwrite] at h
  | cons p m ih =>
    rw [mapOverwrite, List.mem_cons] at h
    rcases h with h | h
    · by_cases hpk : p.1 = k
      · rw [if_pos hpk] at h
        exact Or.inr h
      · rw [if_neg hpk] at h
        exact Or.inl (h ▸ List.mem_cons_self p m)
    · rcases ih h with h2 | h2
      · exact Or.inl (List.mem_cons_of_mem p h2)
      · exact Or.inr h2

lemma mem_mapInsert {kv : String × Int} (m : List (String × Int))
    (k : String) (v : Int) (h : kv ∈ mapInsert m k v) :
    kv ∈ m ∨ kv = (k, v) := by
  rw [mapInsert] at h
  by_cases hhas : mapHasKey m k = true
  · rw [if_pos hhas] at h
    exact mem_mapOverwrite m k v h
  · rw [if_neg hhas, List.mem_append] at h
    rcases h with h | h
    · exact Or.inl h
    · simp at h
      exact Or.inr (by simp [h])

lemma uniformTableFrom_nonneg (locOf : String → Int) (names : List String)
    (acc : List (String × Int)) (hacc : ∀ kv ∈ acc, 0 ≤ kv.2) :
    ∀ kv ∈ uniformTableFrom locOf acc names, 0 ≤ kv.2 := by
  induction names generalizing acc with
  | nil => simpa [uniformTableFrom] using hacc
  | cons n rest ih =>
    rw [uniformTableFrom]
    apply ih
    by_cases hneg : locOf n < 0
    · simpa [hneg] using hacc
    · rw [if_neg hneg]
      intro kv hkv
      rcases mem_mapInsert acc n (locOf n) hkv with h | h
      · exact hacc kv h
      · rw [h]
        omega

lemma attribOffsets_length (offset : Nat) (fields : List FieldDesc) :
    (attribOffsets offset fields).length = fields.length := by
  induction fields generalizing offset with
  | nil => rfl
  | cons f rest ih => simp [attribOffsets, ih]

lemma setup_from_zip (stride offset : Nat) (fields : List FieldDesc) :
    setup_attrib_pointer_from stride offset fields
      = (fields.zip (attribOffsets offset fields)).map
          (fun p => GLCall.vertexAttribPointer p.1.location p.1.compCount
            p.1.scalarType false stride p.2) := by
  induction fields generalizing offset with
  | nil => rfl
  | cons f rest ih =>
    simp [setup_attrib_pointer_from, attribOffsets, List.zip_cons_cons, ih]

lemma attribOffsets_get (fields : List FieldDesc) (offset i : Nat)
    (h : i < (attribOffsets offset fields).length) :
    (attribOffsets offset fields).get ⟨i, h⟩
      = offset + ((fields.take i).map FieldDesc.byteSize).sum := by
  induction fields generalizing offset i with
  | nil => simp [attribOffsets] at h
  | cons f rest ih =>
    cases i with
    | zero => simp [attribOffsets]
    | succ j =>
      have hj : j < (attribOffsets (offset + f.byteSize) rest).length := by
        simpa [attribOffsets] using h
      have := ih (offset + f.byteSize) j hj
      simp only [attribOffsets, List.get_cons_succ, this, List.take_succ_cons,
        List.map_cons, List.sum_cons]
      omega

lemma attribOffsets_lb (fields : List FieldDesc) (offset : Nat) :
    ∀ x ∈ attribOffsets offset fields, offset ≤ x := by
  induction fields generalizing offset with
  | nil => simp [attribOffsets]
  | cons f rest ih =>
    intro x hx
    rw [attribOffsets, List.mem_cons] at hx
    rcases hx with hx | hx
    · omega
    · have := ih (offset + f.byteSize) x hx
      omega

lemma attribOffsets_pairwise (fields : List FieldDesc)
    (hpos : ∀ f ∈ fields, 0 < f.byteSize) (offset : Nat) :
    List.Pairwise (fun a b => a < b) (attribOffsets offset fields) := by
  induction fields generalizing offset with
  | nil => exact List.Pairwise.nil
  | cons f rest ih =>
    rw [attribOffsets]
    refine List.Pairwise.cons ?_ ?_
    · intro x hx
      have h1 := attribOffsets_lb rest (offset + f.byteSize) x hx
      have h2 := hpos f (List.mem_cons_self f rest)
      omega
    · exact ih (fun g hg => hpos g (List.mem_cons_of_mem f hg)) (offset + f.byteSize)

lemma attribOffsets_last (fields : List FieldDesc) :
    ∀ (offset : Nat) (f : FieldDesc) (o : Nat),
      fields.getLast? = some f →
      (attribOffsets offset fields).getLast? = some o →
      o + f.byteSize = offset + (fields.map FieldDesc.byteSize).sum := by
  induction fields with
  | nil =>
    intro offset f o hf ho
    simp at hf
  | cons g rest ih =>
    intro offset f o hf ho
    cases rest with
    | nil =>
      simp at hf
      simp [attribOffsets] at ho
      subst hf
      subst ho
      simp
    | cons g2 rest2 =>
      have hf2 : (g2 :: rest2).getLast? = some f := by
        simpa [List.getLast?] using hf
      have ho2 : (attribOffsets (offset + g.byteSize) (g2 :: rest2)).getLast?
          = some o := by
        rw [attribOffsets] at ho
        rw [← ho]
        symm
        apply List.getLast?_cons_cons
      have := ih (offset + g.byteSize) f o hf2 ho2
      simp only [List.map_cons, List.sum_cons] at this ⊢
      omega

lemma foldl_bufferBindStep_enable (target : Nat) (acc : Option Nat)
    (fields : List FieldDesc) :
    (enable_attribs fields).foldl (bufferBindStep target) acc = acc := by
  induction fields generalizing acc with
  | nil => rfl
  | cons f rest ih => simpa [enable_attribs, bufferBindStep] using ih acc

lemma foldl_bufferBindStep_disable (target : Nat) (acc : Option Nat)
    (fields : List FieldDesc) :
    (disable_attribs fields).foldl (bufferBindStep target) acc = acc := by
  induction fields generalizing acc with
  | nil => rfl
  | cons f rest ih => simpa [disable_attribs, bufferBindStep] using ih acc

lemma foldl_vertexArrayBindStep_enable (acc : Option Nat)
    (fields : List FieldDesc) :
    (enable_attribs fields).foldl vertexArrayBindStep acc = acc := by
  induction fields generalizing acc with
  | nil => rfl
  | cons f rest ih => simpa [enable_attribs, vertexArrayBindStep] using ih acc

lemma foldl_vertexArrayBindStep_disable (acc : Option Nat)
    (fields : List FieldDesc) :
    (disable_attribs fields).foldl vertexArrayBindStep acc = acc := by
  induction fields generalizing acc with
  | nil => rfl
  | cons f rest ih => simpa [disable_attribs, vertexArrayBindStep] using ih acc

lemma filter_isDraw_enable (fields : List FieldDesc) :
    (enable_attribs fields).filter isDraw = [] :=
  filter_map_eq_nil isDraw _ fields (fun _ => rfl)

lemma filter_isDraw_disable (fields : List FieldDesc) :
    (disable_attribs fields).filter isDraw = [] :=
  filter_map_eq_nil isDraw _ fields (fun _ => rfl)

lemma check_compile_error_nonpos (d : Device) (sid : Nat)
    (h : ¬ 0 < d.shaderInfoLogLength) :
    Shader.check_compile_error d sid
      = ([GLCall.getShaderiv sid gl_INFO_LOG_LENGTH], some (Except.ok ())) := by
  simp [Shader.check_compile_error, h]

lemma check_compile_error_pos (d : Device) (sid : Nat)
    (h : 0 < d.shaderInfoLogLength) :
    Shader.check_compile_error d sid
      = ([GLCall.getShaderiv sid gl_INFO_LOG_LENGTH,
          GLCall.getShaderInfoLog sid d.shaderInfoLogLength.toNat],
        some (Except.error (stripTrailingNull
          (overwritePrefix (create_empty_vec_cstr d.shaderInfoLogLength.toNat)
            d.shaderLogWritten)))) := by
  have hpos : 0 < d.shaderInfoLogLength.toNat := by omega
  have hne := overwritePrefix_nonempty
    (create_empty_vec_cstr d.shaderInfoLogLength.toNat) d.shaderLogWritten
    (create_empty_nonempty _ hpos)
  simp [Shader.check_compile_error, h, create_str_some _ hne]

lemma check_link_error_nonpos (d : Device) (pid : Nat)
    (h : ¬ 0 < d.programInfoLogLength) :
    ShaderProgram.check_link_error d pid
      = ([GLCall.getProgramiv pid gl_INFO_LOG_LENGTH], some (Except.ok ())) := by
  simp [ShaderProgram.check_link_error, h]

lemma check_link_error_pos (d : Device) (pid : Nat)
    (h : 0 < d.programInfoLogLength) :
    ShaderProgram.check_link_error d pid
      = ([GLCall.getProgramiv pid gl_INFO_LOG_LENGTH,
          GLCall.getProgramInfoLog pid d.programInfoLogLength.toNat],
        some (Except.error (stripTrailingNull
          (overwritePrefix (create_empty_vec_cstr d.programInfoLogLength.toNat)
            d.programLogWritten)))) := by
  have hpos : 0 < d.programInfoLogLength.toNat := by omega
  have hne := overwritePrefix_nonempty
    (create_empty_vec_cstr d.programInfoLogLength.toNat) d.programLogWritten
    (create_empty_nonempty _ hpos)
  simp [ShaderProgram.check_link_error, h, create_str_some _ hne]

/- Claim theorems. -/

/-- C1: the claim says the indexed-draw call issued by `Mesh::render`
passes the scalar type declared by `IndexType` through
`Index::get_type`.  The code instead passes the fixed constant
`UNSIGNED_SHORT`: for a mesh whose index type is 32-bit
(`IndexTy.u32`, `get_type` = `UNSIGNED_INT`), the draw call still
carries `UNSIGNED_SHORT`. -/
theorem render_index_scalar_type_is_hardcoded :
    ((Mesh.create 1 2 3 demoVertexFields 24 IndexTy.u32 4 6).2.render).filter
        isDraw
      = [GLCall.drawElements gl_TRIANGLES 6 gl_UNSIGNED_SHORT]
  ∧ IndexTy.get_type IndexTy.u32 = gl_UNSIGNED_INT
  ∧ gl_UNSIGNED_SHORT ≠ gl_UNSIGNED_INT := by
  refine ⟨by decide, rfl, by decide⟩

/-- C4: `set_uniform` on a name absent from the cached table issues no
device call and returns the program unchanged; on a cached name it
issues exactly the value's one type-specific call at the cached
location, again leaving the program unchanged. -/
theorem set_uniform_hit_and_miss (p : ShaderProgram) (name : String)
    (v : UniformValue) (loc : Int) :
    (mapGet p.uniforms name = none → p.set_uniform name v = ([], p))
  ∧ (mapGet p.uniforms name = some loc →
      p.set_uniform name v = ([v.set_uniform loc], p)) := by
  constructor
  · intro h
    simp [ShaderProgram.set_uniform, h]
  · intro h
    simp [ShaderProgram.set_uniform, h]

/-- Witness for C4 on the sample program: a miss issues nothing, a hit
issues one `Uniform1f` at the cached location 5. -/
theorem set_uniform_hit_and_miss_witness :
    progEx.set_uniform "beta" UniformValue.vec2 = ([], progEx)
  ∧ progEx.set_uniform "alpha" UniformValue.f32
      = ([GLCall.uniform1f 5], progEx) :=
  ⟨(set_uniform_hit_and_miss progEx "beta" UniformValue.vec2 0).1 (by decide),
    (set_uniform_hit_and_miss progEx "alpha" UniformValue.f32 5).2 (by decide)⟩

/-- C6: `Mesh::create` issues exactly this call sequence: generate and
bind the vertex array; generate and bind the vertex buffer; upload the
vertex bytes; configure the layout's attribute pointers (with both the
vertex array and the vertex buffer still bound); unbind the vertex
buffer; generate the index buffer and upload the index bytes bracketed
by its own bind/unbind (with the vertex array still bound); unbind the
vertex array. -/
theorem mesh_create_call_order (vao vbo ebo : Nat) (fields : List FieldDesc)
    (vertexSize : Nat) (indexType : IndexTy) (nv ni : Nat) :
    (Mesh.create vao vbo ebo fields vertexSize indexType nv ni).1 =
      [GLCall.genVertexArrays vao, GLCall.bindVertexArray vao,
        GLCall.genBuffers vbo, GLCall.bindBuffer gl_ARRAY_BUFFER vbo,
        GLCall.bufferData gl_ARRAY_BUFFER (nv * vertexSize) gl_STATIC_DRAW]
      ++ setup_attrib_pointer fields vertexSize
      ++ [GLCall.bindBuffer gl_ARRAY_BUFFER 0,
          GLCall.genBuffers ebo,
          GLCall.bindBuffer gl_ELEMENT_ARRAY_BUFFER ebo,
          GLCall.bufferData gl_ELEMENT_ARRAY_BUFFER
            (ni * indexType.byteSize) gl_STATIC_DRAW,
          GLCall.bindBuffer gl_ELEMENT_ARRAY_BUFFER 0,
          GLCall.bindVertexArray 0] := by
  simp [Mesh.create, Buffer.bindCalls, Buffer.bufferCalls, Buffer.buffer_raw,
    Buffer.unbindCalls]

/-- C7: a mesh created from `n` indices stores index count `n`, and
`render()` always runs the whole bracket: bind vertex array, bind index
buffer, enable attributes, exactly one indexed-draw call for `n`
indices as triangles, disable attributes, unbind index buffer, unbind
vertex array — leaving both the element-buffer and the vertex-array
bind targets at zero. -/
theorem mesh_render_full_bracket (vao vbo ebo : Nat)
    (fields : List FieldDesc) (vertexSize : Nat) (indexType : IndexTy)
    (nv n : Nat) (h : n < 2 ^ 31) :
    ((Mesh.create vao vbo ebo fields vertexSize indexType nv n).2.indices = n)
  ∧ (Mesh.create vao vbo ebo fields vertexSize indexType nv n).2.render =
      [GLCall.bindVertexArray vao,
        GLCall.bindBuffer gl_ELEMENT_ARRAY_BUFFER ebo]
      ++ enable_attribs fields
      ++ [GLCall.drawElements gl_TRIANGLES (n : Int) gl_UNSIGNED_SHORT]
      ++ disable_attribs fields
      ++ [GLCall.bindBuffer gl_ELEMENT_ARRAY_BUFFER 0,
          GLCall.bindVertexArray 0]
  ∧ ((Mesh.create vao vbo ebo fields vertexSize indexType nv n).2.render).filter
        isDraw
      = [GLCall.drawElements gl_TRIANGLES (n : Int) gl_UNSIGNED_SHORT]
  ∧ finalBufferBind gl_ELEMENT_ARRAY_BUFFER
      ((Mesh.create vao vbo ebo fields vertexSize indexType nv n).2.render)
      = some 0
  ∧ finalVertexArrayBind
      ((Mesh.create vao vbo ebo fields vertexSize indexType nv n).2.render)
      = some 0 := by
  have hi : i32_of_usize n = (n : Int) := by
    unfold i32_of_usize
    rw [Nat.mod_eq_of_lt (show n < 2 ^ 32 by omega), if_pos h]
  have htr : (Mesh.create vao vbo ebo fields vertexSize indexType nv n).2.render =
      [GLCall.bindVertexArray vao,
        GLCall.bindBuffer gl_ELEMENT_ARRAY_BUFFER ebo]
      ++ enable_attribs fields
      ++ [GLCall.drawElements gl_TRIANGLES (n : Int) gl_UNSIGNED_SHORT]
      ++ disable_attribs fields
      ++ [GLCall.bindBuffer gl_ELEMENT_ARRAY_BUFFER 0,
          GLCall.bindVertexArray 0] := by
    simp [Mesh.create, Mesh.render, Buffer.bindCalls, Buffer.unbindCalls, hi]
  refine ⟨rfl, htr, ?_, ?_, ?_⟩
  · rw [htr]
    simp [List.filter_append, filter_isDraw_enable, filter_isDraw_disable,
      List.filter, isDraw]
  · rw [htr]
    simp [finalBufferBind, List.foldl_append, List.foldl,
      foldl_bufferBindStep_enable, foldl_bufferBindStep_disable,
      bufferBindStep]
  · rw [htr]
    simp [finalVertexArrayBind, List.foldl_append, List.foldl,
      foldl_vertexArrayBindStep_enable, foldl_vertexArrayBindStep_disable,
      vertexArrayBindStep]

/-- C5: for a vertex record whose fields all have positive in-memory
size, unique locations, and whose sizes sum to at most the record's
total size (as Rust's layout guarantees), the generated layout emits
exactly one attribute-pointer binding per field in declaration order,
the i-th binding's offset is the sum of the sizes of fields 0..i,
every binding carries the record's total size as its stride, the
offsets are strictly increasing, and the last offset plus the last
field's size is at most the stride. -/
theorem derived_layout_bindings (fields : List FieldDesc) (stride : Nat)
    (i : Nat) (hi : i < (attribOffsets 0 fields).length) (l : FieldDesc)
    (o : Nat) (hpos : ∀ g ∈ fields, 0 < g.byteSize)
    (hsum : (fields.map FieldDesc.byteSize).sum ≤ stride)
    (hloc : (fields.map FieldDesc.location).Nodup)
    (hlast : fields.getLast? = some l)
    (hlasto : (attribOffsets 0 fields).getLast? = some o) :
    (setup_attrib_pointer fields stride).length = fields.length
  ∧ setup_attrib_pointer fields stride
      = (fields.zip (attribOffsets 0 fields)).map
          (fun p => GLCall.vertexAttribPointer p.1.location p.1.compCount
            p.1.scalarType false stride p.2)
  ∧ (attribOffsets 0 fields).get ⟨i, hi⟩
      = ((fields.take i).map FieldDesc.byteSize).sum
  ∧ List.Pairwise (fun a b => a < b) (attribOffsets 0 fields)
  ∧ o + l.byteSize ≤ stride := by
  refine ⟨?_, ?_, ?_, ?_, ?_⟩
  · rw [setup_attrib_pointer, setup_from_zip]
    simp [attribOffsets_length]
  · rw [setup_attrib_pointer, setup_from_zip]
  · simpa using attribOffsets_get fields 0 i hi
  · exact attribOffsets_pairwise fields hpos 0
  · have := attribOffsets_last fields 0 l o hlast hlasto
    omega

/-- Witness for C5 on the demo vertex record (two 12-byte fields at
locations 0 and 1, record size 24). -/
theorem derived_layout_bindings_witness :
    (setup_attrib_pointer demoVertexFields 24).length
        = demoVertexFields.length
  ∧ 12 + FieldDesc.byteSize ⟨1, 3, gl_FLOAT, 12⟩ ≤ 24 := by
  have h := derived_layout_bindings demoVertexFields 24 1 (by decide)
    ⟨1, 3, gl_FLOAT, 12⟩ 12 (by decide) (by decide) (by decide) (by decide)
    (by decide)
  exact ⟨h.1, h.2.2.2.2⟩

/-- C2: a shader (resp. program) construction fails exactly when the
device reports a positive info-log length — the only signal consulted
(the one status query issued is for `INFO_LOG_LENGTH`); on failure the
error carries the log read into a buffer of exactly the reported
length, with a single trailing null byte, if present, removed. -/
theorem log_protocol_error_iff (d : Device) (sid pid sty : Nat)
    (shaders : List Nat) (names : List String) :
    (isErr (Shader.new_from_source d sid sty).2
        = decide (0 < d.shaderInfoLogLength))
  ∧ ((Shader.check_compile_error d sid).2 = some (Except.ok ())
        ↔ d.shaderInfoLogLength ≤ 0)
  ∧ (0 < d.shaderInfoLogLength →
      (overwritePrefix (create_empty_vec_cstr d.shaderInfoLogLength.toNat)
          d.shaderLogWritten).length = d.shaderInfoLogLength.toNat
      ∧ Shader.check_compile_error d sid
          = ([GLCall.getShaderiv sid gl_INFO_LOG_LENGTH,
              GLCall.getShaderInfoLog sid d.shaderInfoLogLength.toNat],
            some (Except.error (stripTrailingNull
              (overwritePrefix
                (create_empty_vec_cstr d.shaderInfoLogLength.toNat)
                d.shaderLogWritten)))))
  ∧ (isErr (ShaderProgram.new_from_shaders d pid shaders names).2
        = decide (0 < d.programInfoLogLength))
  ∧ ((ShaderProgram.check_link_error d pid).2 = some (Except.ok ())
        ↔ d.programInfoLogLength ≤ 0)
  ∧ (0 < d.programInfoLogLength →
      (overwritePrefix (create_empty_vec_cstr d.programInfoLogLength.toNat)
          d.programLogWritten).length = d.programInfoLogLength.toNat
      ∧ ShaderProgram.check_link_error d pid
          = ([GLCall.getProgramiv pid gl_INFO_LOG_LENGTH,
              GLCall.getProgramInfoLog pid d.programInfoLogLength.toNat],
            some (Except.error (stripTrailingNull
              (overwritePrefix
                (create_empty_vec_cstr d.programInfoLogLength.toNat)
                d.programLogWritten))))) := by
  refine ⟨?_, ?_, ?_, ?_, ?_, ?_⟩
  · by_cases h : 0 < d.shaderInfoLogLength
    · simp [Shader.new_from_source, check_compile_error_pos d sid h, isErr, h]
    · simp [Shader.new_from_source, check_compile_error_nonpos d sid h, isErr, h]
  · by_cases h : 0 < d.shaderInfoLogLength
    · rw [check_compile_error_pos d sid h]
      simp
      omega
    · rw [check_compile_error_nonpos d sid h]
      simp
      omega
  · intro h
    constructor
    · rw [overwritePrefix_length]
      simp [create_empty_vec_cstr]
    · exact check_compile_error_pos d sid h
  · by_cases h : 0 < d.programInfoLogLength
    · simp [ShaderProgram.new_from_shaders, check_link_error_pos d pid h,
        isErr, h]
    · simp [ShaderProgram.new_from_shaders, check_link_error_nonpos d pid h,
        isErr, h]
  · by_cases h : 0 < d.programInfoLogLength
    · rw [check_link_error_pos d pid h]
      simp
      omega
    · rw [check_link_error_nonpos d pid h]
      simp
      omega
  · intro h
    constructor
    · rw [overwritePrefix_length]
      simp [create_empty_vec_cstr]
    · exact check_link_error_pos d pid h

/-- Witness for C2 on the sample erroring device: a five-byte log with
a trailing null yields an error carrying the four text bytes. -/
theorem log_protocol_error_iff_witness :
    isErr (Shader.new_from_source devE 1 0).2
        = decide (0 < devE.shaderInfoLogLength)
  ∧ Shader.check_compile_error devE 1
      = ([GLCall.getShaderiv 1 gl_INFO_LOG_LENGTH,
          GLCall.getShaderInfoLog 1 devE.shaderInfoLogLength.toNat],
        some (Except.error (stripTrailingNull
          (overwritePrefix
            (create_empty_vec_cstr devE.shaderInfoLogLength.toNat)
            devE.shaderLogWritten)))) := by
  have h := log_protocol_error_iff devE 1 2 0 [] []
  exact ⟨h.1, (h.2.2.1 (by decide)).2⟩

/-- C9: the conversion helper would index out of bounds on an empty
buffer (modelled as `none`), but along both call paths it only ever
runs under the positive-length guard on a buffer of exactly that
length, so neither construction can panic: every result is `some`. -/
theorem log_conversion_in_bounds (d : Device) (sid pid sty : Nat)
    (shaders : List Nat) (names : List String) :
    create_str_from_raw_cstr [] = none
  ∧ ((Shader.check_compile_error d sid).2).isSome = true
  ∧ ((ShaderProgram.check_link_error d pid).2).isSome = true
  ∧ ((Shader.new_from_source d sid sty).2).isSome = true
  ∧ ((ShaderProgram.new_from_shaders d pid shaders names).2).isSome
      = true := by
  refine ⟨rfl, ?_, ?_, ?_, ?_⟩
  · by_cases h : 0 < d.shaderInfoLogLength
    · rw [check_compile_error_pos d sid h]
      rfl
    · rw [check_compile_error_nonpos d sid h]
      rfl
  · by_cases h : 0 < d.programInfoLogLength
    · rw [check_link_error_pos d pid h]
      rfl
    · rw [check_link_error_nonpos d pid h]
      rfl
  · by_cases h : 0 < d.shaderInfoLogLength
    · simp [Shader.new_from_source, check_compile_error_pos d sid h]
    · simp [Shader.new_from_source, check_compile_error_nonpos d sid h]
  · by_cases h : 0 < d.programInfoLogLength
    · simp [ShaderProgram.new_from_shaders, check_link_error_pos d pid h]
    · simp [ShaderProgram.new_from_shaders, check_link_error_nonpos d pid h]

/-- Witness for C7 on the demo quad: 4 vertices, 6 16-bit indices — the
stored count is 6 and the single draw call requests 6 indices. -/
theorem mesh_render_full_bracket_witness :
    ((Mesh.create 1 2 3 demoVertexFields 24 IndexTy.u16 4 6).2.indices = 6)
  ∧ ((Mesh.create 1 2 3 demoVertexFields 24 IndexTy.u16 4 6).2.render).filter
        isDraw
      = [GLCall.drawElements gl_TRIANGLES ((6 : Nat) : Int) gl_UNSIGNED_SHORT] :=
  ⟨(mesh_render_full_bracket 1 2 3 demoVertexFields 24 IndexTy.u16 4 6
      (by norm_num)).1,
    (mesh_render_full_bracket 1 2 3 demoVertexFields 24 IndexTy.u16 4 6
      (by norm_num)).2.2.1⟩

/-- C3: after a successful link, the cached table maps a name to a
location exactly when the name was requested and its queried location
is non-negative (and then to exactly that location); names whose query
came back negative are absent, and construction succeeds regardless. -/
theorem new_from_shaders_uniform_table (d : Device) (pid : Nat)
    (shaders : List Nat) (names : List String) (k : String)
    (hlink : d.programInfoLogLength ≤ 0) :
    (ShaderProgram.new_from_shaders d pid shaders names).2
      = some (Except.ok ⟨pid, uniformTable d.uniformLocation names⟩)
  ∧ mapGet (uniformTable d.uniformLocation names) k
      = if k ∈ names ∧ 0 ≤ d.uniformLocation k
          then some (d.uniformLocation k) else none := by
  constructor
  · have hn : ¬ 0 < d.programInfoLogLength := by omega
    simp [ShaderProgram.new_from_shaders, check_link_error_nonpos d pid hn]
  · rw [uniformTable, mapGet_uniformTableFrom]
    rcases h : decide (k ∈ names ∧ 0 ≤ d.uniformLocation k) with _ | _
    · have := of_decide_eq_false h
      simp [this, mapGet]
    · have := of_decide_eq_true h
      simp [this]

/-- Witness for C3 on the sample device: mvp is cached at its queried
location 3, missing (queried location -1) is absent. -/
theorem new_from_shaders_uniform_table_witness :
    (ShaderProgram.new_from_shaders devU 7 [1, 2] ["mvp", "missing"]).2
      = some (Except.ok ⟨7, uniformTable devU.uniformLocation
          ["mvp", "missing"]⟩)
  ∧ mapGet (uniformTable devU.uniformLocation ["mvp", "missing"]) "missing"
      = if "missing" ∈ ["mvp", "missing"]
            ∧ 0 ≤ devU.uniformLocation "missing"
          then some (devU.uniformLocation "missing") else none :=
  new_from_shaders_uniform_table devU 7 [1, 2] ["mvp", "missing"] "missing"
    (by decide)

/-- C8: when the link check fails, `new_from_shaders` returns the error
at once — the full call trace holds no `DetachShader` and no
`GetUniformLocation`; the still-attached shaders are deleted (their
drop runs) after the program object is, as the trace equality shows. -/
theorem link_error_early_return (d : Device) (pid : Nat)
    (shaders : List Nat) (names : List String)
    (h : 0 < d.programInfoLogLength) :
    isErr (ShaderProgram.new_from_shaders d pid shaders names).2 = true
  ∧ (ShaderProgram.new_from_shaders d pid shaders names).1
      = GLCall.createProgram pid
          :: (shaders.map (GLCall.attachShader pid)
            ++ [GLCall.linkProgram pid,
                GLCall.getProgramiv pid gl_INFO_LOG_LENGTH,
                GLCall.getProgramInfoLog pid d.programInfoLogLength.toNat,
                GLCall.deleteProgram pid]
            ++ shaders.map GLCall.deleteShader)
  ∧ ((ShaderProgram.new_from_shaders d pid shaders names).1).filter isDetach
      = []
  ∧ ((ShaderProgram.new_from_shaders d pid shaders names).1).filter
        isUniformQuery
      = [] := by
  have h1 := filter_map_eq_nil isDetach (GLCall.attachShader pid) shaders
    (fun _ => rfl)
  have h2 := filter_map_eq_nil isDetach GLCall.deleteShader shaders
    (fun _ => rfl)
  have h3 := filter_map_eq_nil isUniformQuery (GLCall.attachShader pid)
    shaders (fun _ => rfl)
  have h4 := filter_map_eq_nil isUniformQuery GLCall.deleteShader shaders
    (fun _ => rfl)
  refine ⟨?_, ?_, ?_, ?_⟩
  · simp [ShaderProgram.new_from_shaders, check_link_error_pos d pid h, isErr]
  · simp [ShaderProgram.new_from_shaders, check_link_error_pos d pid h]
  · simp [ShaderProgram.new_from_shaders, check_link_error_pos d pid h,
      List.filter_append, List.filter, isDetach, h1, h2]
  · simp [ShaderProgram.new_from_shaders, check_link_error_pos d pid h,
      List.filter_append, List.filter, isUniformQuery, h3, h4]

/-- Witness for C8 on the sample erroring device with two attached
shaders. -/
theorem link_error_early_return_witness :
    isErr (ShaderProgram.new_from_shaders devE 7 [4, 5] ["u"]).2 = true
  ∧ ((ShaderProgram.new_from_shaders devE 7 [4, 5] ["u"]).1).filter isDetach
      = [] := by
  have h := link_error_early_return devE 7 [4, 5] ["u"] (by decide)
  exact ⟨h.1, h.2.2.1⟩

/-- C10: every location stored in the table of a successfully built
program is non-negative (missing names are simply absent), and the
table is never modified afterwards: `bind`, `unbind` and `set_uniform`
all return the program — table included — unchanged. -/
theorem uniform_table_nonneg_immutable (d : Device) (pid : Nat)
    (shaders : List Nat) (names : List String) (p : ShaderProgram)
    (name : String) (v : UniformValue)
    (h : (ShaderProgram.new_from_shaders d pid shaders names).2
        = some (Except.ok p)) :
    allNonneg p.uniforms = true
  ∧ p.bind = ([GLCall.useProgram p.id], p)
  ∧ p.unbind = ([GLCall.useProgram 0], p)
  ∧ (p.set_uniform name v).2 = p := by
  have hp : p.uniforms = uniformTable d.uniformLocation names := by
    by_cases hl : 0 < d.programInfoLogLength
    · rw [ShaderProgram.new_from_shaders, check_link_error_pos d pid hl] at h
      simp at h
    · rw [ShaderProgram.new_from_shaders,
        check_link_error_nonpos d pid hl] at h
      simp at h
      rw [← h]
  refine ⟨?_, rfl, rfl, ?_⟩
  · rw [hp, allNonneg, List.all_eq_true]
    intro kv hkv
    have := uniformTableFrom_nonneg d.uniformLocation names []
      (by intro kv2 hkv2; simp at hkv2) kv hkv
    exact decide_eq_true this
  · rcases hm : mapGet p.uniforms name with _ | loc
    · simp [ShaderProgram.set_uniform, hm]
    · simp [ShaderProgram.set_uniform, hm]

/-- Witness for C10 on the sample device's program. -/
theorem uniform_table_nonneg_immutable_witness :
    allNonneg progU.uniforms = true
  ∧ (progU.set_uniform "mvp" UniformValue.f32).2 = progU := by
  have h := uniform_table_nonneg_immutable devU 7 [1, 2] ["mvp", "missing"]
    progU "mvp" UniformValue.f32 (by rfl)
  exact ⟨h.1, h.2.2.2⟩

end Citey
